import Mathlib

/-!
Verification development for dockerhub-util.py.

The file shallowly embeds the core of the program: the Python string
comparison used by max and sort, the find_latest_version heuristic,
the get_latest_versions resolver loop, and the DockerHubClient.do_request
HTTP wrapper.  Network effects are modelled by explicit oracle functions
passed as arguments; Python exceptions (ValueError from max on an empty
sequence, ValueError for an invalid HTTP method) are modelled by Option
and Except results.
-/

namespace DockerhubUtil

/-- Boolean lexicographic comparison of character lists by code point,
the comparison Python uses on str values. -/
def pyListLtB : List Char → List Char → Bool
  | _, [] => false
  | [], _ :: _ => true
  | a :: as, b :: bs =>
    if a < b then true
    else if b < a then false
    else pyListLtB as bs

/-- Python strict less-than on strings: code-point lexicographic order. -/
def pyStrLtB (a b : String) : Bool :=
  pyListLtB a.data b.data

/-- Python less-or-equal on strings, derived from the strict comparison. -/
def pyStrLeB (a b : String) : Bool :=
  ! pyStrLtB b a

theorem pyListLtB_iff_lex (as bs : List Char) :
    pyListLtB as bs = true ↔ List.Lex (· < ·) as bs := by
  induction as generalizing bs with
  | nil =>
    cases bs with
    | nil =>
      constructor
      · intro h; simp [pyListLtB] at h
      · intro h; cases h
    | cons b bs =>
      constructor
      · intro _; exact List.Lex.nil
      · intro _; rfl
  | cons a as ih =>
    cases bs with
    | nil =>
      constructor
      · intro h; simp [pyListLtB] at h
      · intro h; cases h
    | cons b bs =>
      rcases lt_trichotomy a b with h | h | h
      · constructor
        · intro _; exact List.Lex.rel h
        · intro _; simp [pyListLtB, h]
      · subst h
        have hrec : pyListLtB (a :: as) (a :: bs) = pyListLtB as bs := by
          simp [pyListLtB]
        rw [hrec, List.Lex.cons_iff]
        exact ih bs
      · constructor
        · intro hb; simp [pyListLtB, h, asymm h] at hb
        · intro hl
          cases hl with
          | rel h' => exact absurd h' (asymm h)
          | cons _ => exact absurd h (lt_irrefl a)

/-- The embedded Python comparison agrees with the Mathlib linear order
on String, which is also code-point lexicographic. -/
theorem pyStrLtB_iff (a b : String) : pyStrLtB a b = true ↔ a < b := by
  rw [String.lt_iff_toList_lt]
  exact pyListLtB_iff_lex a.data b.data

theorem pyStrLtB_eq_false_iff (a b : String) : pyStrLtB a b = false ↔ b ≤ a := by
  rw [← not_lt, ← pyStrLtB_iff]
  simp

theorem pyStrLeB_iff (a b : String) : pyStrLeB a b = true ↔ a ≤ b := by
  simp [pyStrLeB, pyStrLtB_eq_false_iff]

theorem pyStrLeB_eq_false_iff (a b : String) : pyStrLeB a b = false ↔ b < a := by
  simp [pyStrLeB, pyStrLtB_iff]

/-- Python max over a list of strings: scan left to right, replace the
current value whenever a strictly greater element appears.  The empty
list yields none, modelling the ValueError that Python max raises. -/
def pyMax : List String → Option String
  | [] => none
  | x :: xs => some (List.foldl (fun cur y => if pyStrLtB cur y then y else cur) x xs)

theorem pyMax_foldl_mem (xs : List String) (cur : String) :
    List.foldl (fun cur y => if pyStrLtB cur y then y else cur) cur xs ∈ cur :: xs := by
  induction xs generalizing cur with
  | nil => simp
  | cons y ys ih =>
    rw [List.foldl_cons]
    rcases List.mem_cons.mp (ih (if pyStrLtB cur y then y else cur)) with h | h
    · rw [h]
      by_cases hb : pyStrLtB cur y = true
      · rw [if_pos hb]; simp
      · rw [if_neg hb]; simp
    · exact List.mem_cons.mpr (Or.inr (List.mem_cons.mpr (Or.inr h)))

theorem pyMax_foldl_ge (xs : List String) (cur : String) :
    ∀ z ∈ cur :: xs, z ≤ List.foldl (fun cur y => if pyStrLtB cur y then y else cur) cur xs := by
  induction xs generalizing cur with
  | nil =>
    intro z hz
    rcases List.mem_cons.mp hz with h | h
    · exact le_of_eq h
    · cases h
  | cons y ys ih =>
    intro z hz
    rw [List.foldl_cons]
    have hstep : (if pyStrLtB cur y then y else cur) ≤
        List.foldl (fun cur y => if pyStrLtB cur y then y else cur)
          (if pyStrLtB cur y then y else cur) ys :=
      ih _ _ (List.mem_cons.mpr (Or.inl rfl))
    have hcur : cur ≤ if pyStrLtB cur y then y else cur := by
      by_cases hb : pyStrLtB cur y = true
      · rw [if_pos hb]
        exact le_of_lt ((pyStrLtB_iff cur y).mp hb)
      · rw [if_neg hb]
    have hy : y ≤ if pyStrLtB cur y then y else cur := by
      by_cases hb : pyStrLtB cur y = true
      · rw [if_pos hb]
      · rw [if_neg hb]
        rw [Bool.not_eq_true] at hb
        exact (pyStrLtB_eq_false_iff cur y).mp hb
    rcases List.mem_cons.mp hz with h | h
    · rw [h]
      exact le_trans hcur hstep
    · rcases List.mem_cons.mp h with h2 | h2
      · rw [h2]
        exact le_trans hy hstep
      · exact ih _ z (List.mem_cons.mpr (Or.inr h2))

theorem pyMax_mem {l : List String} {m : String} (h : pyMax l = some m) : m ∈ l := by
  cases l with
  | nil => cases h
  | cons x xs =>
    rw [pyMax, Option.some.injEq] at h
    exact h ▸ pyMax_foldl_mem xs x

theorem pyMax_ge {l : List String} {m : String} (h : pyMax l = some m) :
    ∀ z ∈ l, z ≤ m := by
  cases l with
  | nil => cases h
  | cons x xs =>
    rw [pyMax, Option.some.injEq] at h
    exact fun z hz => h ▸ pyMax_foldl_ge xs x z hz

theorem pyMax_isSome {l : List String} (h : l ≠ []) : ∃ m, pyMax l = some m := by
  cases l with
  | nil => exact absurd rfl h
  | cons x xs => exact ⟨_, rfl⟩

/-- Tags that never denote a concrete version, from find_latest_version. -/
def redact_list : List String :=
  ["latest", "experimental"]

/-- Placeholder removal loop of find_latest_version: for each redact tag,
if it occurs in the list, remove its first occurrence (Python list.remove).
The returned list is also the state of the callers list after the call,
since the Python function mutates its argument in place. -/
def removePlaceholders (version_list : List String) : List String :=
  List.foldl (fun l redact => if redact ∈ l then l.erase redact else l)
    version_list redact_list

/-- Embedding of find_latest_version: drop the placeholder tags, then take
the Python max of the remaining strings.  The result is none exactly when
Python would raise ValueError on max of an empty sequence. -/
def find_latest_version (version_list : List String) : Option String :=
  pyMax (removePlaceholders version_list)

/-- Minimal JSON value type for decoded response bodies. -/
inductive Json where
  | null : Json
  | bool : Bool → Json
  | num : Int → Json
  | str : String → Json
  | arr : List Json → Json
  | obj : List (String × Json) → Json

/-- An HTTP response as seen by do_request after decoding: the status code
and the JSON value that json.loads would produce from the body. -/
structure HttpResponse where
  status_code : Nat
  body : Json

/-- Network oracle for do_request: maps the url, the headers and the
request body (kept structured; textual serialization is absorbed into the
oracle) to the HTTP response of the registry. -/
def Transport : Type :=
  String → List (String × String) → List (String × Json) → HttpResponse

/-- Configuration object slice that the client and resolver read. -/
structure Config where
  auth_token : Option String
  dockerhub_api_endpoint_v1 : String
  dockerhub_api_endpoint_v2 : String
  dockerhub_organization : Option String

/-- State of a DockerHubClient after its constructor ran on a Config. -/
structure DockerHubClient where
  auth_token : Option String
  dockerhub_api_endpoint_v1 : String
  dockerhub_api_endpoint_v2 : String
  valid_methods : List String

/-- Constructor of DockerHubClient: copies the endpoints and token from
the configuration and fixes the valid methods to GET and POST. -/
def DockerHubClient.init (config : Config) : DockerHubClient :=
  { auth_token := config.auth_token
    dockerhub_api_endpoint_v1 := config.dockerhub_api_endpoint_v1
    dockerhub_api_endpoint_v2 := config.dockerhub_api_endpoint_v2
    valid_methods := ["GET", "POST"] }

/-- Python truthiness of an optional string: None and the empty string are
falsy, everything else is truthy. -/
def pyTruthyStr : Option String → Bool
  | none => false
  | some s => s ≠ ""

/-- Header construction of do_request: always a JSON content type, plus a
JWT authorization header when a truthy auth token is configured. -/
def request_headers (auth_token : Option String) : List (String × String) :=
  let headers := [("Content-type", "application/json")]
  if pyTruthyStr auth_token then
    headers ++ [("Authorization", "JWT " ++ auth_token.getD "")]
  else
    headers

/-- Embedding of DockerHubClient.do_request.  An invalid method raises
ValueError (modelled as Except.error) before any network activity; with a
valid method the transport oracle is consulted and the decoded body is
returned on status 200, the empty mapping on every other status. -/
def DockerHubClient.do_request (client : DockerHubClient) (transport : Transport)
    (url : String) (method : String) (data : List (String × Json)) :
    Except String Json :=
  if method ∉ client.valid_methods then
    Except.error "Invalid HTTP request method"
  else
    let headers := request_headers client.auth_token
    let response :=
      if data.length > 0 then transport url headers data
      else transport url headers []
    if response.status_code = 200 then Except.ok response.body
    else Except.ok (Json.obj [])

/-- Python str formatting of an optional value: None prints as None. -/
def pyFormatOpt : Option String → String
  | some s => s
  | none => "None"

/-- Embedding of DockerHubClient.get_repository_tags: a GET against the v1
tags endpoint with no request body. -/
def DockerHubClient.get_repository_tags (client : DockerHubClient)
    (transport : Transport) (organization : Option String)
    (repository_name : String) : Except String Json :=
  let url := client.dockerhub_api_endpoint_v1 ++ "/repositories/" ++
    pyFormatOpt organization ++ "/" ++ repository_name ++ "/tags"
  client.do_request transport url "GET" []

/-- One element of a decoded tag-list response; the name field is what the
resolver extracts from each element. -/
structure TagRecord where
  name : String
deriving DecidableEq

/-- Registry oracle for the resolver: maps an organization and repository
name to the decoded tag records of the v1 tags endpoint.  A failed call
(non-200 status) produced an empty mapping in do_request, which the
resolver loop iterates as zero elements, hence the empty list. -/
def Registry : Type :=
  Option String → String → List TagRecord

/-- One value of the dockerhub_repositories_for_latest table. -/
structure RepositoryEntry where
  environment_variable : String
  version : Option String
  organization : Option String
deriving DecidableEq

/-- Effective organization of an entry: the per-entry override when the
key is present, otherwise the configured default organization. -/
def effectiveOrganization (config : Config) (value : RepositoryEntry) :
    Option String :=
  match value.organization with
  | some org => some org
  | none => config.dockerhub_organization

/-- Body of the get_latest_versions loop for one table entry: a truthy
pinned version is used verbatim; otherwise the registry is consulted, the
name fields are extracted, and find_latest_version selects the tag. -/
def resolveEntry (config : Config) (registry : Registry) (key : String)
    (value : RepositoryEntry) : Option String :=
  if pyTruthyStr value.version then
    value.version
  else
    let response := registry (effectiveOrganization config value) key
    let version_tags := response.map TagRecord.name
    find_latest_version version_tags

/-- Rendered assignment string for one entry, from the format string
export NAME=VALUE of get_latest_versions. -/
def renderLine (value : RepositoryEntry) (latest_version : String) : String :=
  "export " ++ value.environment_variable ++ "=" ++ latest_version

/-- The get_latest_versions loop before sorting: render the entries in
table order, aborting the whole run (none) as soon as one entry fails. -/
def render_lines (config : Config) (registry : Registry) :
    List (String × RepositoryEntry) → Option (List String)
  | [] => some []
  | (key, value) :: rest =>
    match resolveEntry config registry key value with
    | none => none
    | some latest_version =>
      match render_lines config registry rest with
      | none => none
      | some lines => some (renderLine value latest_version :: lines)

/-- Insertion of a string into a list sorted by the Python comparison. -/
def insert_sorted (x : String) : List String → List String
  | [] => [x]
  | y :: ys => if pyStrLeB x y then x :: y :: ys else y :: insert_sorted x ys

/-- Model of Python list.sort on strings: a comparison sort under the
code-point lexicographic order. -/
def sort_strings : List String → List String
  | [] => []
  | x :: xs => insert_sorted x (sort_strings xs)

/-- Embedding of get_latest_versions: resolve every entry of the table,
then sort the rendered export lines; none models the uncaught ValueError
that aborts the run with no partial output. -/
def get_latest_versions (config : Config) (registry : Registry)
    (dockerhub_repositories : List (String × RepositoryEntry)) :
    Option (List String) :=
  match render_lines config registry dockerhub_repositories with
  | none => none
  | some result => some (sort_strings result)

/-- The postgres row of the dockerhub_repositories_for_latest table. -/
def postgresEntry : RepositoryEntry :=
  { environment_variable := "SENZING_DOCKER_IMAGE_VERSION_POSTGRES"
    version := some "11.6"
    organization := none }

/-- The g2loader row of the dockerhub_repositories_for_latest table. -/
def g2loaderEntry : RepositoryEntry :=
  { environment_variable := "SENZING_DOCKER_IMAGE_VERSION_G2LOADER"
    version := none
    organization := none }

theorem removeStep_eq (l : List String) (r : String) :
    (if r ∈ l then l.erase r else l) = l.erase r := by
  by_cases h : r ∈ l
  · rw [if_pos h]
  · rw [if_neg h, List.erase_of_not_mem h]

theorem removePlaceholders_eq (l : List String) :
    removePlaceholders l = (l.erase "latest").erase "experimental" := by
  rw [removePlaceholders, redact_list]
  simp only [List.foldl_cons, List.foldl_nil]
  rw [removeStep_eq, removeStep_eq]

theorem count_latest_removePlaceholders (l : List String) :
    List.count "latest" (removePlaceholders l) = List.count "latest" l - 1 := by
  rw [removePlaceholders_eq, List.count_erase_of_ne (by decide), List.count_erase_self]

theorem count_experimental_removePlaceholders (l : List String) :
    List.count "experimental" (removePlaceholders l) =
      List.count "experimental" l - 1 := by
  rw [removePlaceholders_eq, List.count_erase_self, List.count_erase_of_ne (by decide)]

theorem insert_sorted_perm (x : String) (l : List String) :
    (insert_sorted x l).Perm (x :: l) := by
  induction l with
  | nil => exact List.Perm.refl _
  | cons y ys ih =>
    by_cases h : pyStrLeB x y = true
    · rw [insert_sorted, if_pos h]
    · rw [insert_sorted, if_neg h]
      exact (ih.cons y).trans (List.Perm.swap x y ys)

theorem sort_strings_perm (l : List String) : (sort_strings l).Perm l := by
  induction l with
  | nil => exact List.Perm.refl _
  | cons x xs ih =>
    rw [sort_strings]
    exact (insert_sorted_perm x (sort_strings xs)).trans (ih.cons x)

theorem sorted_insert_sorted (x : String) (l : List String)
    (h : List.Sorted (· ≤ ·) l) :
    List.Sorted (· ≤ ·) (insert_sorted x l) := by
  induction l with
  | nil => simp [insert_sorted]
  | cons y ys ih =>
    rw [List.sorted_cons] at h
    by_cases hb : pyStrLeB x y = true
    · rw [insert_sorted, if_pos hb, List.sorted_cons]
      refine ⟨?_, List.sorted_cons.mpr h⟩
      intro b hbmem
      have hx : x ≤ y := (pyStrLeB_iff x y).mp hb
      rcases List.mem_cons.mp hbmem with h2 | h2
      · exact h2 ▸ hx
      · exact le_trans hx (h.1 b h2)
    · rw [insert_sorted, if_neg hb, List.sorted_cons]
      rw [Bool.not_eq_true] at hb
      have hyx : y < x := (pyStrLeB_eq_false_iff x y).mp hb
      refine ⟨?_, ih h.2⟩
      intro b hbmem
      have hbm : b ∈ x :: ys := (insert_sorted_perm x ys).mem_iff.mp hbmem
      rcases List.mem_cons.mp hbm with h2 | h2
      · exact h2 ▸ le_of_lt hyx
      · exact h.1 b h2

theorem sorted_sort_strings (l : List String) :
    List.Sorted (· ≤ ·) (sort_strings l) := by
  induction l with
  | nil => simp [sort_strings]
  | cons x xs ih =>
    rw [sort_strings]
    exact sorted_insert_sorted x _ ih

theorem render_lines_length (config : Config) (registry : Registry) :
    ∀ (repos : List (String × RepositoryEntry)) (lines : List String),
      render_lines config registry repos = some lines →
      lines.length = repos.length := by
  intro repos
  induction repos with
  | nil =>
    intro lines h
    rw [render_lines, Option.some.injEq] at h
    rw [← h]
    rfl
  | cons hd tl ih =>
    intro lines h
    obtain ⟨key, value⟩ := hd
    rw [render_lines] at h
    cases hres : resolveEntry config registry key value with
    | none => rw [hres] at h; cases h
    | some lv =>
      rw [hres] at h
      cases hrest : render_lines config registry tl with
      | none => rw [hrest] at h; cases h
      | some ls =>
        rw [hrest, Option.some.injEq] at h
        rw [← h, List.length_cons, List.length_cons, ih ls hrest]

theorem render_lines_none (config : Config) (registry : Registry) :
    ∀ (repos : List (String × RepositoryEntry)) (key : String)
      (value : RepositoryEntry),
      (key, value) ∈ repos →
      resolveEntry config registry key value = none →
      render_lines config registry repos = none := by
  intro repos
  induction repos with
  | nil =>
    intro key value hmem _
    cases hmem
  | cons hd tl ih =>
    intro key value hmem hres
    obtain ⟨k, v⟩ := hd
    rw [render_lines]
    rcases List.mem_cons.mp hmem with heq | htl
    · have hk : key = k := congrArg Prod.fst heq
      have hv : value = v := congrArg Prod.snd heq
      rw [← hk, ← hv, hres]
    · cases hrk : resolveEntry config registry k v with
      | none => rfl
      | some lv => rw [ih key value htl hres]

theorem render_lines_perm (config : Config) (registry : Registry) :
    ∀ {repos1 repos2 : List (String × RepositoryEntry)}, repos1.Perm repos2 →
    ∀ {l1 : List String}, render_lines config registry repos1 = some l1 →
    ∃ l2, render_lines config registry repos2 = some l2 ∧ l1.Perm l2 := by
  intro repos1 repos2 hp
  induction hp with
  | nil =>
    intro l1 h
    exact ⟨l1, h, List.Perm.refl _⟩
  | cons x p ih =>
    rename_i t1 t2
    intro l1 h
    obtain ⟨k, v⟩ := x
    rw [render_lines] at h
    cases hres : resolveEntry config registry k v with
    | none => rw [hres] at h; cases h
    | some lv =>
      rw [hres] at h
      cases hrest : render_lines config registry t1 with
      | none => rw [hrest] at h; cases h
      | some ls =>
        rw [hrest, Option.some.injEq] at h
        obtain ⟨ls2, hls2, hperm⟩ := ih hrest
        refine ⟨renderLine v lv :: ls2, ?_, ?_⟩
        · rw [render_lines, hres, hls2]
        · rw [← h]
          exact hperm.cons _
  | swap x y t =>
    intro l1 h
    obtain ⟨kx, vx⟩ := x
    obtain ⟨ky, vy⟩ := y
    rw [render_lines] at h
    cases hry : resolveEntry config registry ky vy with
    | none => rw [hry] at h; cases h
    | some ly =>
      rw [hry] at h
      cases hinner : render_lines config registry ((kx, vx) :: t) with
      | none => rw [hinner] at h; cases h
      | some lsx =>
        rw [hinner, Option.some.injEq] at h
        rw [render_lines] at hinner
        cases hrx : resolveEntry config registry kx vx with
        | none => rw [hrx] at hinner; cases hinner
        | some lx =>
          rw [hrx] at hinner
          cases hrest : render_lines config registry t with
          | none => rw [hrest] at hinner; cases hinner
          | some ls =>
            rw [hrest, Option.some.injEq] at hinner
            refine ⟨renderLine vx lx :: renderLine vy ly :: ls, ?_, ?_⟩
            · rw [render_lines, hrx, render_lines, hry, hrest]
            · rw [← h, ← hinner]
              exact List.Perm.swap _ _ _
  | trans p1 p2 ih1 ih2 =>
    intro l1 h
    obtain ⟨l2, hl2, hp12⟩ := ih1 h
    obtain ⟨l3, hl3, hp23⟩ := ih2 hl2
    exact ⟨l3, hl3, hp12.trans hp23⟩

theorem get_latest_versions_some {config : Config} {registry : Registry}
    {repos : List (String × RepositoryEntry)} {lines : List String}
    (h : get_latest_versions config registry repos = some lines) :
    ∃ rendered, render_lines config registry repos = some rendered ∧
      lines = sort_strings rendered := by
  rw [get_latest_versions] at h
  cases hr : render_lines config registry repos with
  | none => rw [hr] at h; cases h
  | some rendered =>
    rw [hr, Option.some.injEq] at h
    exact ⟨rendered, rfl, h.symm⟩

theorem do_request_eq_of_invalid (config : Config) (transport : Transport)
    (url method : String) (data : List (String × Json))
    (h : method ∉ ["GET", "POST"]) :
    (DockerHubClient.init config).do_request transport url method data =
      Except.error "Invalid HTTP request method" := by
  rw [DockerHubClient.do_request, if_pos]
  exact h

theorem do_request_eq_of_valid (config : Config) (transport : Transport)
    (url method : String) (data : List (String × Json))
    (h : method ∈ ["GET", "POST"]) :
    (DockerHubClient.init config).do_request transport url method data =
      Except.ok
        (if (transport url (request_headers config.auth_token) data).status_code = 200
         then (transport url (request_headers config.auth_token) data).body
         else Json.obj []) := by
  have hmem : method ∈ (DockerHubClient.init config).valid_methods := h
  rw [DockerHubClient.do_request, if_neg (not_not_intro hmem)]
  simp only [DockerHubClient.init]
  have hdata : (if data.length > 0 then transport url (request_headers config.auth_token) data
      else transport url (request_headers config.auth_token) []) =
      transport url (request_headers config.auth_token) data := by
    by_cases hd : data.length > 0
    · rw [if_pos hd]
    · rw [if_neg hd]
      rw [List.length_eq_zero.mp (Nat.eq_zero_of_not_pos hd)]
  rw [hdata]
  by_cases hs : (transport url (request_headers config.auth_token) data).status_code = 200
  · rw [if_pos hs, if_pos hs]
  · rw [if_neg hs, if_neg hs]

/-- Configuration built from the defaults of configuration_locator. -/
def sampleConfig : Config :=
  { auth_token := none
    dockerhub_api_endpoint_v1 := "https://registry.hub.docker.com/v1"
    dockerhub_api_endpoint_v2 := "https://hub.docker.com/v2"
    dockerhub_organization := some "senzing" }

/-- Registry oracle that answers every query with no tags. -/
def emptyRegistry : Registry := fun _ _ => []

/-- Registry oracle of the g2loader scenario from the spec. -/
def g2loaderRegistry : Registry := fun _ _ =>
  [{ name := "1.2" }, { name := "1.10" }, { name := "latest" }]

/-- Registry oracle whose only tags are the two placeholders. -/
def placeholderRegistry : Registry := fun _ _ =>
  [{ name := "latest" }, { name := "experimental" }]

/-- Transport oracle that always answers 200 with a fixed body. -/
def okTransport : Transport := fun _ _ _ =>
  { status_code := 200, body := Json.str "ok" }

/-- Transport oracle that always answers 404 with a null body. -/
def notFoundTransport : Transport := fun _ _ _ =>
  { status_code := 404, body := Json.null }

/-- C1: for every unpinned repository entry whose fetched tag list is
non-empty after placeholder removal, the selected version is the maximum
of the remaining tag strings under plain lexicographic string ordering,
and on the tag list 1.2, 1.10, latest the selected version is 1.2. -/
theorem claim_find_latest_version_selects_lex_max
    (l : List String) (h : removePlaceholders l ≠ []) :
    (∃ m, find_latest_version l = some m ∧ m ∈ removePlaceholders l ∧
        ∀ x ∈ removePlaceholders l, x ≤ m) ∧
    (∀ (config : Config) (registry : Registry) (key : String)
        (value : RepositoryEntry), value.version = none →
        resolveEntry config registry key value =
          find_latest_version
            ((registry (effectiveOrganization config value) key).map TagRecord.name)) ∧
    find_latest_version ["1.2", "1.10", "latest"] = some "1.2" := by
  refine ⟨?_, ?_, by decide⟩
  · obtain ⟨m, hm⟩ := pyMax_isSome h
    exact ⟨m, hm, pyMax_mem hm, pyMax_ge hm⟩
  · intro config registry key value hv
    rw [resolveEntry, hv]
    rfl

/-- Witness for the C1 theorem at the g2loader scenario tag list. -/
theorem claim_find_latest_version_selects_lex_max_witness :
    ∃ m, find_latest_version ["1.2", "1.10", "latest"] = some m ∧
      m ∈ removePlaceholders ["1.2", "1.10", "latest"] ∧
      ∀ x ∈ removePlaceholders ["1.2", "1.10", "latest"], x ≤ m :=
  (claim_find_latest_version_selects_lex_max ["1.2", "1.10", "latest"] (by decide)).1

/-- C2: the placeholders latest and experimental are each removed at most
once before the maximum is computed, and a tag list containing latest
exactly once plus a non-placeholder tag has latest excluded from the
candidate set of the maximum. -/
theorem claim_placeholders_removed_at_most_once (l : List String) :
    (List.count "latest" (removePlaceholders l) =
        List.count "latest" l - (if "latest" ∈ l then 1 else 0)) ∧
    (List.count "experimental" (removePlaceholders l) =
        List.count "experimental" l - (if "experimental" ∈ l then 1 else 0)) ∧
    (List.count "latest" l = 1 → (∃ x ∈ l, x ∉ redact_list) →
        "latest" ∉ removePlaceholders l) := by
  refine ⟨?_, ?_, ?_⟩
  · rw [count_latest_removePlaceholders]
    by_cases hm : "latest" ∈ l
    · rw [if_pos hm]
    · rw [if_neg hm, List.count_eq_zero.mpr hm]
  · rw [count_experimental_removePlaceholders]
    by_cases hm : "experimental" ∈ l
    · rw [if_pos hm]
    · rw [if_neg hm, List.count_eq_zero.mpr hm]
  · intro h1 _
    rw [← List.count_eq_zero, count_latest_removePlaceholders, h1]

/-- Witness for the C2 theorem on a list with latest appearing once. -/
theorem claim_placeholders_removed_at_most_once_witness :
    "latest" ∉ removePlaceholders ["latest", "1.0"] :=
  (claim_placeholders_removed_at_most_once ["latest", "1.0"]).2.2 (by decide)
    (by decide)

/-- C3: a pinned entry is resolved without consulting the registry and its
pinned value appears verbatim in the rendered line; the postgres entry
always yields export SENZING_DOCKER_IMAGE_VERSION_POSTGRES=11.6. -/
theorem claim_pinned_version_verbatim :
    (∀ (config : Config) (reg1 reg2 : Registry) (key : String)
        (value : RepositoryEntry) (v : String),
        value.version = some v → v ≠ "" →
        resolveEntry config reg1 key value = some v ∧
        resolveEntry config reg1 key value = resolveEntry config reg2 key value) ∧
    (∀ (config : Config) (registry : Registry),
        get_latest_versions config registry [("postgres", postgresEntry)] =
          some ["export SENZING_DOCKER_IMAGE_VERSION_POSTGRES=11.6"]) := by
  constructor
  · intro config reg1 reg2 key value v hv hne
    have ht : pyTruthyStr value.version = true := by
      rw [hv]
      simp [pyTruthyStr, hne]
    constructor
    · rw [resolveEntry, if_pos ht, hv]
    · rw [resolveEntry, if_pos ht, resolveEntry, if_pos ht]
  · intro config registry
    rfl

/-- Witness for the C3 theorem at the postgres entry with two distinct
registry oracles. -/
theorem claim_pinned_version_verbatim_witness :
    resolveEntry sampleConfig emptyRegistry "postgres" postgresEntry = some "11.6" ∧
    resolveEntry sampleConfig emptyRegistry "postgres" postgresEntry =
      resolveEntry sampleConfig g2loaderRegistry "postgres" postgresEntry :=
  claim_pinned_version_verbatim.1 sampleConfig emptyRegistry g2loaderRegistry
    "postgres" postgresEntry "11.6" rfl (by decide)

/-- C4: with method GET or POST, do_request returns the decoded JSON body
exactly when the response status is 200 and the empty mapping on every
other status, never an error. -/
theorem claim_do_request_status_gate (config : Config) (transport : Transport)
    (url method : String) (data : List (String × Json))
    (h : method = "GET" ∨ method = "POST") :
    (DockerHubClient.init config).do_request transport url method data =
      Except.ok
        (if (transport url (request_headers config.auth_token) data).status_code = 200
         then (transport url (request_headers config.auth_token) data).body
         else Json.obj []) := by
  apply do_request_eq_of_valid
  rcases h with h | h <;> rw [h] <;> decide

/-- Witness for the C4 theorem on a GET answered with status 200. -/
theorem claim_do_request_status_gate_witness :
    (DockerHubClient.init sampleConfig).do_request okTransport "url" "GET" [] =
      Except.ok
        (if (okTransport "url" (request_headers sampleConfig.auth_token) []).status_code = 200
         then (okTransport "url" (request_headers sampleConfig.auth_token) []).body
         else Json.obj []) :=
  claim_do_request_status_gate sampleConfig okTransport "url" "GET" [] (Or.inl rfl)

/-- C5: an unpinned entry whose tag list is empty after placeholder
filtering makes find_latest_version fail, and a run whose table contains
such an entry aborts as a whole with no partial output; in particular a
tag list holding only latest and experimental fails. -/
theorem claim_empty_after_filter_fatal :
    (∀ l : List String, removePlaceholders l = [] → find_latest_version l = none) ∧
    (∀ (config : Config) (registry : Registry)
        (repos : List (String × RepositoryEntry)) (key : String)
        (value : RepositoryEntry),
        (key, value) ∈ repos → value.version = none →
        removePlaceholders
          ((registry (effectiveOrganization config value) key).map TagRecord.name) = [] →
        get_latest_versions config registry repos = none) ∧
    find_latest_version ["latest", "experimental"] = none := by
  refine ⟨?_, ?_, by decide⟩
  · intro l h
    rw [find_latest_version, h]
    rfl
  · intro config registry repos key value hmem hv hempty
    have hres : resolveEntry config registry key value = none := by
      rw [resolveEntry, hv]
      show find_latest_version
        ((registry (effectiveOrganization config value) key).map TagRecord.name) = none
      rw [find_latest_version, hempty]
      rfl
    rw [get_latest_versions, render_lines_none config registry repos key value hmem hres]

/-- Witness for the C5 theorem: a one-entry table whose registry reports
only the two placeholder tags aborts the run. -/
theorem claim_empty_after_filter_fatal_witness :
    get_latest_versions sampleConfig placeholderRegistry
      [("g2loader", g2loaderEntry)] = none :=
  claim_empty_after_filter_fatal.2.1 sampleConfig placeholderRegistry
    [("g2loader", g2loaderEntry)] "g2loader" g2loaderEntry (by decide) rfl (by decide)

/-- C6: every successful run returns exactly the lexicographic sort of the
individually rendered export lines, and the result is invariant under
permutations of the repository table. -/
theorem claim_output_sorted_and_order_independent
    (config : Config) (registry : Registry)
    (repos : List (String × RepositoryEntry)) (lines : List String)
    (h : get_latest_versions config registry repos = some lines) :
    (∃ rendered, render_lines config registry repos = some rendered ∧
        lines.Perm rendered ∧ List.Sorted (· ≤ ·) lines) ∧
    (∀ repos2 : List (String × RepositoryEntry), repos2.Perm repos →
        get_latest_versions config registry repos2 = some lines) := by
  obtain ⟨rendered, hr, hl⟩ := get_latest_versions_some h
  subst hl
  constructor
  · exact ⟨rendered, hr, sort_strings_perm rendered, sorted_sort_strings rendered⟩
  · intro repos2 hp
    obtain ⟨r2, hr2, hperm⟩ := render_lines_perm config registry hp.symm hr
    rw [get_latest_versions, hr2]
    show some (sort_strings r2) = some (sort_strings rendered)
    have h1 : (sort_strings r2).Perm (sort_strings rendered) :=
      ((sort_strings_perm r2).trans hperm.symm).trans (sort_strings_perm rendered).symm
    rw [List.eq_of_perm_of_sorted h1 (sorted_sort_strings r2) (sorted_sort_strings rendered)]

/-- Witness for the C6 theorem on the one-entry postgres table. -/
theorem claim_output_sorted_and_order_independent_witness :
    ∃ rendered, render_lines sampleConfig emptyRegistry
        [("postgres", postgresEntry)] = some rendered ∧
      List.Perm ["export SENZING_DOCKER_IMAGE_VERSION_POSTGRES=11.6"] rendered ∧
      List.Sorted (· ≤ ·) ["export SENZING_DOCKER_IMAGE_VERSION_POSTGRES=11.6"] :=
  (claim_output_sorted_and_order_independent sampleConfig emptyRegistry
    [("postgres", postgresEntry)] ["export SENZING_DOCKER_IMAGE_VERSION_POSTGRES=11.6"]
    (by decide)).1

/-- C7: a method other than GET or POST makes do_request fail with the
InvalidMethod error and no request reaches the transport, while GET and
POST pass the method check and never yield an error. -/
theorem claim_invalid_method_rejected :
    (∀ (config : Config) (t1 t2 : Transport) (url method : String)
        (data : List (String × Json)),
        method ≠ "GET" → method ≠ "POST" →
        (DockerHubClient.init config).do_request t1 url method data =
          Except.error "Invalid HTTP request method" ∧
        (DockerHubClient.init config).do_request t1 url method data =
          (DockerHubClient.init config).do_request t2 url method data) ∧
    (∀ (config : Config) (t : Transport) (url method : String)
        (data : List (String × Json)),
        method = "GET" ∨ method = "POST" →
        ∃ j, (DockerHubClient.init config).do_request t url method data = Except.ok j) := by
  constructor
  · intro config t1 t2 url method data h1 h2
    have hnm : method ∉ ["GET", "POST"] := by
      simp [h1, h2]
    have e1 := do_request_eq_of_invalid config t1 url method data hnm
    have e2 := do_request_eq_of_invalid config t2 url method data hnm
    exact ⟨e1, e1.trans e2.symm⟩
  · intro config t url method data h
    have hm : method ∈ ["GET", "POST"] := by
      rcases h with h | h <;> rw [h] <;> decide
    exact ⟨_, do_request_eq_of_valid config t url method data hm⟩

/-- Witness for the C7 theorem on the DELETE method with two distinct
transport oracles. -/
theorem claim_invalid_method_rejected_witness :
    (DockerHubClient.init sampleConfig).do_request okTransport "url" "DELETE" [] =
      Except.error "Invalid HTTP request method" ∧
    (DockerHubClient.init sampleConfig).do_request okTransport "url" "DELETE" [] =
      (DockerHubClient.init sampleConfig).do_request notFoundTransport "url" "DELETE" [] :=
  claim_invalid_method_rejected.1 sampleConfig okTransport notFoundTransport
    "url" "DELETE" [] (by decide) (by decide)

/-- C8: every successful run yields exactly one export line per table
entry, so the output length equals the table length. -/
theorem claim_one_line_per_entry (config : Config) (registry : Registry)
    (repos : List (String × RepositoryEntry)) (lines : List String)
    (h : get_latest_versions config registry repos = some lines) :
    lines.length = repos.length := by
  obtain ⟨rendered, hr, hl⟩ := get_latest_versions_some h
  subst hl
  rw [(sort_strings_perm rendered).length_eq]
  exact render_lines_length config registry repos rendered hr

/-- Witness for the C8 theorem on the one-entry postgres table. -/
theorem claim_one_line_per_entry_witness :
    (["export SENZING_DOCKER_IMAGE_VERSION_POSTGRES=11.6"] : List String).length =
      ([("postgres", postgresEntry)] : List (String × RepositoryEntry)).length :=
  claim_one_line_per_entry sampleConfig emptyRegistry [("postgres", postgresEntry)]
    ["export SENZING_DOCKER_IMAGE_VERSION_POSTGRES=11.6"] (by decide)

/-- C9: resolution is deterministic in the registry responses: two runs
over registries giving identical responses produce identical output. -/
theorem claim_resolution_deterministic (config : Config) (reg1 reg2 : Registry)
    (repos : List (String × RepositoryEntry))
    (h : ∀ org key, reg1 org key = reg2 org key) :
    get_latest_versions config reg1 repos = get_latest_versions config reg2 repos := by
  have heq : reg1 = reg2 := funext fun org => funext fun key => h org key
  rw [heq]

/-- Witness for the C9 theorem with the empty registry on both sides. -/
theorem claim_resolution_deterministic_witness :
    get_latest_versions sampleConfig emptyRegistry [("postgres", postgresEntry)] =
      get_latest_versions sampleConfig emptyRegistry [("postgres", postgresEntry)] :=
  claim_resolution_deterministic sampleConfig emptyRegistry emptyRegistry
    [("postgres", postgresEntry)] (fun _ _ => rfl)

/-- C10: find_latest_version updates the tag list it was handed in place;
the post-call list state, removePlaceholders, is the original list with
the first occurrence of latest and the first occurrence of experimental
removed (when present), all other elements keeping their multiplicity and
relative order. -/
theorem claim_mutation_removes_first_occurrences (l : List String) :
    removePlaceholders l = (l.erase "latest").erase "experimental" ∧
    (removePlaceholders l).Sublist l ∧
    (∀ x, x ≠ "latest" → x ≠ "experimental" →
        List.count x (removePlaceholders l) = List.count x l) := by
  refine ⟨removePlaceholders_eq l, ?_, ?_⟩
  · rw [removePlaceholders_eq]
    exact (List.erase_sublist _ _).trans (List.erase_sublist _ _)
  · intro x hx1 hx2
    rw [removePlaceholders_eq, List.count_erase_of_ne hx2, List.count_erase_of_ne hx1]

/-- Witness for the C10 theorem: a non-placeholder element keeps its
multiplicity. -/
theorem claim_mutation_removes_first_occurrences_witness :
    List.count "1.0" (removePlaceholders ["1.0", "latest"]) =
      List.count "1.0" ["1.0", "latest"] :=
  (claim_mutation_removes_first_occurrences ["1.0", "latest"]).2.2 "1.0"
    (by decide) (by decide)

end DockerhubUtil
